import Mathlib

/-
Verification development for the custom-element component framework in
src/all.js: declarative ref binding (Component.#updateRefs), ancestor and
owning-component resolution (getAncestor, getClosestComponent), the
document-level event delegation router (registerEventListeners, getElement,
parseData, parseValue), the per-frame task Scheduler, and the declarative
shadow-root hydrator (DeclarativeShadowElement.connectedCallback).

The DOM is embedded as a finite indexed forest: node ids are natural
numbers assigned in document order (a parent precedes its descendants, a
shadow root follows its host), so parent and host links strictly decrease.
Ancestor walks are written with an explicit fuel of nodes.length + 1,
which exceeds the length of any strictly decreasing chain, so the fuel
never runs out on a well-formed dom; this keeps every definition a plain
structural recursion that the kernel can evaluate.
-/

/-! ### Generic association lists (JS object property read and write) -/

/-- Read of property k on a JS object represented as an insertion-ordered
association list: first binding with the key wins (bindings are unique by
construction, since writes go through setEntry). -/
def lookupEntry {α : Type} : List (String × α) → String → Option α
  | [], _ => none
  | p :: rest, k => if p.1 = k then some p.2 else lookupEntry rest k

/-- Write of property k on a JS object: replace the existing binding in
place (preserving insertion order) or append a new one, exactly the
observable behaviour of a JS property assignment. -/
def setEntry {α : Type} : List (String × α) → String → α → List (String × α)
  | [], k, v => [(k, v)]
  | p :: rest, k, v => if p.1 = k then (k, v) :: rest else p :: setEntry rest k v

theorem lookupEntry_setEntry {α : Type} (r : List (String × α)) (k k' : String) (v : α) :
    lookupEntry (setEntry r k v) k' = if k' = k then some v else lookupEntry r k' := by
  induction r with
  | nil =>
    by_cases h : k' = k
    · simp [setEntry, lookupEntry, h]
    · have h2 : ¬ k = k' := fun hk => h hk.symm
      simp [setEntry, lookupEntry, h, h2]
  | cons p rest ih =>
    by_cases hp : p.1 = k
    · by_cases h : k' = k
      · simp [setEntry, lookupEntry, hp, h]
      · have h2 : ¬ k = k' := fun hk => h hk.symm
        simp [setEntry, lookupEntry, hp, h2, h]
    · by_cases h : k' = p.1
      · have h3 : ¬ k' = k := fun hk => hp (h.symm.trans hk)
        simp [setEntry, lookupEntry, hp, h.symm, h3]
      · have h4 : ¬ p.1 = k' := fun hk => h hk.symm
        simp [setEntry, lookupEntry, hp, h4, ih]

/-! ### Character-list helpers (models of JS string builtins) -/

/-- Model of JS String.prototype.split with a single-character separator,
over explicit character lists. -/
def splitOnChar (sep : Char) : List Char → List (List Char)
  | [] => [[]]
  | c :: rest =>
    let r := splitOnChar sep rest
    if c = sep then [] :: r
    else
      match r with
      | h :: t => (c :: h) :: t
      | [] => [[c]]

/-- Substring containment over character lists (used to state that an error
message names a given ref or tag). -/
def containsSub (pat cs : List Char) : Bool :=
  (List.range (cs.length + 1)).any fun i => pat.isPrefixOf (cs.drop i)

/-- Model of JS String.prototype.toLowerCase restricted to the ASCII
alphabet, which covers every tag name and attribute in the repository. -/
def jsToLower (s : String) : String :=
  String.mk (s.data.map Char.toLower)

/-- Model of JS String.prototype.trim (ASCII whitespace). -/
def jsTrim (s : String) : String :=
  String.mk (((s.data.dropWhile Char.isWhitespace).reverse.dropWhile Char.isWhitespace).reverse)

/-! ### The DOM embedding -/

inductive NodeKind where
  | element
  | shadowRootNode
  | document
deriving DecidableEq, Repr

/-- One DOM node. `isComponentInstance` models `instanceof Component`;
`methods` lists the names m for which `typeof node[m] === 'function'`;
`parent` is `parentNode`; `host` is the host element when the node is a
shadow root; `shadow` is the node id of the element's shadow root, if any. -/
structure DomNode where
  kind : NodeKind
  tag : String
  isComponentInstance : Bool
  attrs : List (String × String)
  methods : List String
  parent : Option Nat
  host : Option Nat
  shadow : Option Nat
deriving DecidableEq, Repr

def defaultDomNode : DomNode :=
  { kind := NodeKind.element, tag := "", isComponentInstance := false,
    attrs := [], methods := [], parent := none, host := none, shadow := none }

/-- A link (parent or host) must point strictly below the node's own index:
node ids are assigned in document order. -/
def linkLt (o : Option Nat) (i : Nat) : Bool :=
  match o with
  | some p => p < i
  | none => true

structure Dom where
  nodes : List DomNode
  wf : ∀ i : Fin nodes.length,
    (linkLt (nodes.get i).parent i.1 && linkLt (nodes.get i).host i.1) = true

def Dom.node (d : Dom) (i : Nat) : DomNode :=
  d.nodes.getD i defaultDomNode

/-- Model of Element.getAttribute (none models null). -/
def getAttr (d : Dom) (i : Nat) (name : String) : Option String :=
  (List.find? (fun p => p.1 = name) (d.node i).attrs).map (fun p => p.2)

/-- Model of Element.hasAttribute. -/
def hasAttr (d : Dom) (i : Nat) (name : String) : Bool :=
  (getAttr d i name).isSome

/-! ### getAncestor and getClosestComponent (src/all.js lines 959 to 983) -/

/-- Embeds getAncestor: return parentNode when present; otherwise the node
is its own root (getRootNode of a parentless node is the node itself), and
when that root is a ShadowRoot return its host; else null. -/
def getAncestor (d : Dom) (n : Nat) : Option Nat :=
  match (d.node n).parent with
  | some p => some p
  | none =>
    if (d.node n).kind = NodeKind.shadowRootNode then (d.node n).host else none

/-- Fuel-indexed body of getClosestComponent. The source recursion walks
strictly upward; fuel nodes.length + 1 is enough on a well-formed dom. -/
def getClosestComponentFuel (d : Dom) : Nat → Option Nat → Option Nat
  | _, none => none
  | 0, some _ => none
  | fuel + 1, some n =>
    if (d.node n).isComponentInstance then some n
    else if (d.node n).kind = NodeKind.element
        && (List.isSuffixOf "-component".data (jsToLower (d.node n).tag).data) then some n
    else
      match getAncestor d n with
      | some a => getClosestComponentFuel d fuel (some a)
      | none => none

/-- Embeds getClosestComponent: the nearest inclusive ancestor that is a
Component instance, or an HTMLElement whose lowercased tag name ends with
"-component"; null when none is found. -/
def getClosestComponent (d : Dom) (n : Option Nat) : Option Nat :=
  getClosestComponentFuel d (d.nodes.length + 1) n

/-- Embeds Component.#isDescendant: the node's closest owning component,
computed from its ancestor, is this component (identity comparison). -/
def isDescendant (d : Dom) (c : Nat) (n : Nat) : Bool :=
  getClosestComponent d (getAncestor d n) == some c

/-! ### Component.roots and the ref scan (src/all.js lines 840 to 925) -/

/-- Embeds the roots getter: [this, shadowRoot] when a shadow root is
attached, else [this]. -/
def roots (d : Dom) (c : Nat) : List Nat :=
  match (d.node c).shadow with
  | some s => [c, s]
  | none => [c]

/-- Fuel-indexed strict-descendant test along parentNode links only (the
scope of querySelectorAll: it never crosses a shadow boundary, because a
shadow root has no parentNode link to its host). -/
def inTreeFuel (d : Dom) (r : Nat) : Nat → Nat → Bool
  | 0, _ => false
  | fuel + 1, n =>
    match (d.node n).parent with
    | some p => p == r || inTreeFuel d r fuel p
    | none => false

def inTree (d : Dom) (r : Nat) (n : Nat) : Bool :=
  inTreeFuel d r (d.nodes.length + 1) n

/-- Embeds root.querySelectorAll with an attribute selector for the ref
marker: every element descendant of r carrying a ref attribute, in document
order (ascending node id, by the id-assignment convention). -/
def querySelectorAllRef (d : Dom) (r : Nat) : List Nat :=
  (List.range d.nodes.length).filter fun n =>
    (d.node n).kind == NodeKind.element && inTree d r n && hasAttr d n "ref"

/-- The body of the inner collection loop of Component.#updateRefs: skip
elements not owned by this component (the `continue`), then add to the
insertion-ordered deduplicating set. -/
def addRefElement (d : Dom) (c : Nat) (acc : List Nat) (e : Nat) : List Nat :=
  if !(isDescendant d c e) then acc
  else if acc.contains e then acc
  else acc ++ [e]

/-- Embeds the element-collection loop of Component.#updateRefs: for each
root in order, for each [ref] descendant in document order, add the
qualifying elements to the set. -/
def collectRefElements (d : Dom) (c : Nat) : List Nat :=
  (roots d c).foldl
    (fun acc root => (querySelectorAllRef d root).foldl (addRefElement d c) acc)
    []

/-! ### The refs mapping (src/all.js lines 901 to 925) -/

/-- A slot value: a single element reference or an ordered sequence (JS
array) of element references. -/
inductive RefVal where
  | one (e : Nat)
  | many (es : List Nat)
deriving DecidableEq, Repr

abbrev Refs : Type := List (String × RefVal)

/-- The value of the ref attribute of an element, with the nullish
fallback of the source: ref.getAttribute('ref') ?? ''. -/
def refMarker (d : Dom) (e : Nat) : String :=
  (getAttr d e "ref").getD ""

/-- Embeds refName.endsWith('[]'): the repetition suffix is exactly the
two trailing characters. -/
def markerIsArray (m : String) : Bool :=
  List.isSuffixOf "[]".data m.data

/-- Embeds the path computation: isArray ? refName.slice(0, -2) : refName. -/
def markerPath (m : String) : String :=
  if markerIsArray m then String.mk (m.data.take (m.data.length - 2)) else m

/-- Embeds the body of the per-element loop of Component.#updateRefs:
repetition markers accumulate into an array (restarting from [] when the
current value is not an array), plain markers overwrite the slot. -/
def buildStep (d : Dom) (refs : Refs) (e : Nat) : Refs :=
  let refName := refMarker d e
  if markerIsArray refName then
    let path := markerPath refName
    let array :=
      match lookupEntry refs path with
      | some (RefVal.many es) => es
      | _ => []
    setEntry refs path (RefVal.many (array ++ [e]))
  else
    setEntry refs (markerPath refName) (RefVal.one e)

/-- The mapping built by one run of Component.#updateRefs, before the
required-refs check. -/
def buildRefs (d : Dom) (c : Nat) : Refs :=
  (collectRefElements d c).foldl (buildStep d) []

/-- Embeds the MissingRefError data: the missing ref name and the
lowercased tag of the offending component. -/
structure MissingRef where
  refName : String
  tagName : String
deriving DecidableEq, Repr

/-- The message built by the MissingRefError constructor. -/
def missingRefMessage (e : MissingRef) : String :=
  "Required ref \"" ++ e.refName ++ "\" not found in component " ++ e.tagName

/-- The first required name with no own binding in refs (the source loops
over requiredRefs in order and throws at the first name failing the
`ref in refs` test; the names used are plain slot names, not inherited
Object.prototype keys, so the in-test is own-key lookup). -/
def firstMissingRef (reqs : List String) (refs : Refs) : Option String :=
  reqs.find? fun r => (lookupEntry refs r).isNone

/-- Embeds Component.#updateRefs end to end: build the mapping, then, when
requiredRefs is declared and nonempty, throw a MissingRefError at the first
missing required name; only on success is the mapping the new refs value. -/
def updateRefsResult (d : Dom) (c : Nat) (required : Option (List String)) :
    Except MissingRef Refs :=
  let refs := buildRefs d c
  match required with
  | some reqs =>
    if reqs.isEmpty then Except.ok refs
    else
      match firstMissingRef reqs refs with
      | some r => Except.error { refName := r, tagName := jsToLower (d.node c).tag }
      | none => Except.ok refs
  | none => Except.ok refs

/-- Per-instance state of a component: the current refs object and whether
the deferred mutation-observer registration has run. -/
structure CompState where
  refs : Refs
  observerRegistered : Bool
deriving DecidableEq, Repr

/-- One invocation of Component.#updateRefs on an instance: the throw in
the required-refs loop happens before the `this.refs = refs` assignment,
so on error the instance keeps the refs object it held before the call
(the error is reported in the second component). -/
def runUpdateRefs (d : Dom) (c : Nat) (required : Option (List String))
    (st : CompState) : CompState × Option MissingRef :=
  match updateRefsResult d c required with
  | Except.ok r => ({ st with refs := r }, none)
  | Except.error e => (st, some e)

/-- Embeds Component.connectedCallback as far as refs are concerned: it
calls #updateRefs synchronously and does not catch MissingRefError, so the
error propagates to the caller and the deferred observer registration
(requestIdleCallback) never runs for that instance. -/
def connectedCallbackRefs (d : Dom) (c : Nat) (required : Option (List String))
    (st : CompState) : Except MissingRef CompState :=
  match updateRefsResult d c required with
  | Except.error e => Except.error e
  | Except.ok r => Except.ok { st with refs := r, observerRegistered := true }

/-! ### The mutation observer (src/all.js lines 932 to 942) -/

/-- One MutationRecord as delivered to the observer callback. -/
structure MutationRecord where
  type : String
  target : Nat
  addedNodes : List Nat
  removedNodes : List Nat
deriving DecidableEq, Repr

/-- Embeds the trigger condition of Component.#mutationObserver: some
record is an attribute mutation on a descendant target, or a childList
mutation one of whose added or removed nodes is a descendant. The test
runs at delivery time, on the post-mutation dom d. -/
def mutationTriggers (d : Dom) (c : Nat) (ms : List MutationRecord) : Bool :=
  ms.any fun m =>
    (m.type == "attributes" && isDescendant d c m.target) ||
    (m.type == "childList" && (m.addedNodes ++ m.removedNodes).any (isDescendant d c))

/-- Embeds one delivery of the observer callback: recompute refs only when
the trigger condition holds. -/
def onMutationBatch (d : Dom) (c : Nat) (required : Option (List String))
    (st : CompState) (ms : List MutationRecord) : CompState × Option MissingRef :=
  if mutationTriggers d c ms then runUpdateRefs d c required st else (st, none)

/-! ### Data parsing for event bindings (src/all.js lines 1087 to 1116) -/

/-- The values a binding payload coerces to. JS numbers are modelled for
the fragment the bindings use: unsigned decimal integer literals. -/
inductive JsValue where
  | bool (b : Bool)
  | num (n : Int)
  | str (s : String)
deriving DecidableEq, Repr

/-- Model of JS Number() on the string fragment reachable from binding
payloads: strings of decimal digits parse to the integer they denote,
other strings are NaN (none). -/
def jsNumberOfString (s : String) : Option Int :=
  if s.data ≠ [] && s.data.all Char.isDigit then
    some (Int.ofNat (s.data.foldl (fun acc c => acc * 10 + (c.toNat - 48)) 0))
  else none

/-- Embeds parseValue: "true" and "false" become booleans, numeric strings
(with content after trimming) become numbers, everything else stays a
string. -/
def parseValue (s : String) : JsValue :=
  if s = "true" then JsValue.bool true
  else if s = "false" then JsValue.bool false
  else
    match jsNumberOfString s with
    | some n => if jsTrim s ≠ "" then JsValue.num n else JsValue.str s
    | none => JsValue.str s

/-- Model of URLSearchParams on the plain fragment binding payloads use:
split on the pair separator, and split each nonempty piece at its first
key-value separator (missing separator gives an empty value); no
percent-escapes or plus-decoding occur in this repository. -/
def parseQueryPairs (cs : List Char) : List (String × String) :=
  (splitOnChar '&' cs).filterMap fun piece =>
    match piece with
    | [] => none
    | _ =>
      let k := piece.takeWhile (fun c => c ≠ '=')
      let v := if k.length = piece.length then [] else piece.drop (k.length + 1)
      some (String.mk k, String.mk v)

/-- A parsed data payload: a mapping for query-string payloads, a scalar
for slash payloads. -/
inductive JsData where
  | obj (entries : List (String × JsValue))
  | scalar (v : JsValue)
deriving DecidableEq, Repr

/-- Embeds parseData: the first character selects the shape; a question
mark yields Object.fromEntries over the coerced query pairs (later keys
overwrite earlier), anything else yields a coerced scalar. -/
def parseData (cs : List Char) : JsData :=
  match cs with
  | [] => JsData.scalar (parseValue "")
  | delim :: data =>
    if delim = '?' then
      JsData.obj ((parseQueryPairs data).foldl
        (fun acc kv => setEntry acc kv.1 (parseValue kv.2)) [])
    else JsData.scalar (parseValue (String.mk data))

/-! ### The event delegation router (src/all.js lines 991 to 1078) -/

def eventsList : List String :=
  ["click", "change", "select", "focus", "blur", "submit", "input",
   "keydown", "keyup", "toggle"]

def shouldBubble : List String := ["focus", "blur"]

def expensiveEvents : List String := ["pointerenter", "pointerleave"]

/-- An event as seen by the document-level listener: its type, the head of
its composed path (the true originating node), and whether it bubbles. -/
structure EventInfo where
  type : String
  target : Nat
  bubbles : Bool
deriving DecidableEq, Repr

/-- Fuel-indexed model of Element.closest with an attribute selector: walk
the inclusive ancestor chain while it stays inside element nodes (the walk
stops at a shadow root or document node, as closest does not cross a
shadow boundary). -/
def closestAttrFuel (d : Dom) (attr : String) : Nat → Nat → Option Nat
  | 0, _ => none
  | fuel + 1, n =>
    if (d.node n).kind == NodeKind.element then
      if hasAttr d n attr then some n
      else
        match (d.node n).parent with
        | some p => closestAttrFuel d attr fuel p
        | none => none
    else none

def closestAttr (d : Dom) (attr : String) (n : Nat) : Option Nat :=
  closestAttrFuel d attr (d.nodes.length + 1) n

/-- Embeds getElement: prefer the composed-path head; bail out unless it is
an Element; use it when it carries the on:<type> marker; otherwise the
expensive event types never ancestor-walk, and the remaining types walk to
the closest marked inclusive ancestor only when the event bubbles or the
type is forced to (focus, blur). -/
def getElement (d : Dom) (ev : EventInfo) : Option Nat :=
  if (d.node ev.target).kind != NodeKind.element then none
  else
    let attr := "on:" ++ ev.type
    if hasAttr d ev.target attr then some ev.target
    else if expensiveEvents.contains ev.type then none
    else if ev.bubbles || shouldBubble.contains ev.type then closestAttr d attr ev.target
    else none

/-- The raw marker value: element.getAttribute(attr) ?? ''. -/
def bindingValue (d : Dom) (element : Nat) (type : String) : String :=
  (getAttr d element ("on:" ++ type)).getD ""

/-- Model of JS value.split('/'), element 0: the selector segment. -/
def bindingSelector (value : String) : String :=
  (splitOnChar '/' value.data).map String.mk |>.getD 0 ""

/-- Model of JS value.split('/'), element 1: the raw method segment, which
is undefined (none) when the value contains no slash. -/
def bindingMethodRaw (value : String) : Option String :=
  ((splitOnChar '/' value.data).map String.mk).get? 1

/-- Embeds the data-extraction regex ([\/\?][^\/\?]+)([\/\?][^\/\?]+)$ and
the pick of its second group: the match, if any, consists of the last two
delimiter-started segments; each needs at least one following
non-delimiter character, so the last delimiter must not end the string and
the two final delimiters must not be adjacent. -/
def matchLastTwoSegments (cs : List Char) : Option (List Char) :=
  let ps := (List.range cs.length).filter fun i =>
    cs.getD i ' ' = '/' || cs.getD i ' ' = '?'
  match ps.reverse with
  | j :: i :: _ =>
    if i + 1 < j && j + 1 < cs.length then some (cs.drop j) else none
  | _ => none

def bindingData (value : String) : Option (List Char) :=
  matchLastTwoSegments value.data

/-- Embeds method.replace(/\?.*/, ''): remove the first question mark and
the characters after it up to (not including) the first newline, since the
dot of the regex does not match newlines. -/
def bindingMethod (raw : String) : String :=
  let before := raw.data.takeWhile (fun c => c ≠ '?')
  let after := raw.data.drop before.length
  match after with
  | [] => String.mk before
  | _ :: rest => String.mk (before ++ rest.dropWhile (fun c => c ≠ '\n'))

/-- Fuel-indexed model of Element.closest with the simple selectors this
dispatch path is used with in the theme (tag-name selectors). -/
def closestTagFuel (d : Dom) (sel : String) : Nat → Nat → Option Nat
  | 0, _ => none
  | fuel + 1, n =>
    if (d.node n).kind == NodeKind.element then
      if jsToLower (d.node n).tag = sel then some n
      else
        match (d.node n).parent with
        | some p => closestTagFuel d sel fuel p
        | none => none
    else none

def closestTag (d : Dom) (sel : String) (n : Nat) : Option Nat :=
  closestTagFuel d sel (d.nodes.length + 1) n

/-- The top of the parentNode chain of a node. -/
def topOfTreeFuel (d : Dom) : Nat → Nat → Nat
  | 0, n => n
  | fuel + 1, n =>
    match (d.node n).parent with
    | some p => topOfTreeFuel d fuel p
    | none => n

def inDocumentTree (d : Dom) (n : Nat) : Bool :=
  (d.node (topOfTreeFuel d (d.nodes.length + 1) n)).kind == NodeKind.document

/-- Model of document.querySelector with an id selector: the first element
of the document tree, in document order, whose id attribute matches. -/
def querySelectorId (d : Dom) (idv : String) : Option Nat :=
  (List.range d.nodes.length).find? fun n =>
    (d.node n).kind == NodeKind.element && inDocumentTree d n
      && getAttr d n "id" == some idv

/-- Embeds the instance resolution of the dispatch: an empty selector
resolves to the closest owning component of the originating element, a
#-selector to a document-wide id lookup, any other selector to the closest
matching inclusive ancestor. -/
def resolveInstance (d : Dom) (element : Nat) (selector : String) : Option Nat :=
  if selector ≠ "" then
    if selector.data.head? = some '#' then
      querySelectorId d (String.mk (selector.data.drop 1))
    else closestTag d selector element
  else getClosestComponent d (some element)

/-- One handler invocation as the dispatch performs it: the receiver, the
parsed method name, the parsed data argument placed first when present,
and the target the handler observes through the proxied event (the element
carrying the binding, also when resolution walked upward from a deeper
composed-path head). -/
structure Invocation where
  receiver : Nat
  method : String
  dataArg : Option JsData
  eventTargetSeen : Nat
deriving DecidableEq, Repr

/-- Embeds the body of the document-level listener for one event: resolve
the element, parse its marker, resolve the instance, and invoke the named
method when the instance is a Component and exposes a callable under the
(query-stripped) name; every other outcome is a silent no-op. -/
def dispatchOn (d : Dom) (ev : EventInfo) : Option Invocation :=
  match getElement d ev with
  | none => none
  | some element =>
    match resolveInstance d element (bindingSelector (bindingValue d element ev.type)),
        bindingMethodRaw (bindingValue d element ev.type) with
    | some inst, some m0 =>
      if m0 = "" then none
      else if !(d.node inst).isComponentInstance then none
      else if (d.node inst).methods.contains (bindingMethod m0) then
        some { receiver := inst, method := bindingMethod m0,
               dataArg := (bindingData (bindingValue d element ev.type)).map parseData,
               eventTargetSeen := element }
      else none
    | _, _ => none

/-- Embeds the try/catch around callback.call: an invocation whose handler
throws is caught and logged through console.error (the log records the
receiver and method); the listener itself always returns normally, so
nothing propagates out of it. -/
def runListener (d : Dom) (throws : Nat → String → Bool) (ev : EventInfo) :
    Option Invocation × List (Nat × String) :=
  match dispatchOn d ev with
  | none => (none, [])
  | some inv =>
    if throws inv.receiver inv.method then (some inv, [(inv.receiver, inv.method)])
    else (some inv, [])

/-- Processing of a stream of events by the document-level listeners: each
event is handled independently; a throwing handler cannot affect later
deliveries because its exception never leaves runListener. -/
def runEvents (d : Dom) (throws : Nat → String → Bool) (evs : List EventInfo) :
    List (Option Invocation × List (Nat × String)) :=
  evs.map (runListener d throws)

/-- Process-wide router state: the module-level `initialized` guard and the
number of times the listener set was actually added to the document. -/
structure RouterState where
  ready : Bool
  registeredCount : Nat
deriving DecidableEq, Repr

/-- Embeds registerEventListeners: a second call is a no-op thanks to the
module-level guard, so the listener set is added at most once per process. -/
def registerEventListeners (st : RouterState) : RouterState :=
  if st.ready then st
  else { ready := true, registeredCount := st.registeredCount + 1 }

/-- The handler invocations a single event produces: one per registered
copy of the listener set (exactly one in a correctly initialized process),
and none for event types outside the tracked list. -/
def invocationsForEvent (st : RouterState) (d : Dom) (ev : EventInfo) :
    List Invocation :=
  if (eventsList ++ expensiveEvents).contains ev.type then
    match dispatchOn d ev with
    | some inv => List.replicate st.registeredCount inv
    | none => []
  else []

/-! ### The Scheduler (src/all.js lines 632 to 660) -/

/-- Scheduler state: the pending task set (a JS Set iterates in insertion
order, so it is an insertion-ordered duplicate-free list) and the pending
flush flag. -/
structure SchedulerState where
  queue : List Nat
  scheduled : Bool
deriving DecidableEq, Repr

/-- The asynchronous effects schedule performs when it arms a flush. -/
inductive SchedulerAction where
  | awaitViewTransition
  | requestFrame
deriving DecidableEq, Repr

/-- Embeds Scheduler.schedule: add the task to the set (a no-op for a task
already pending), and when no flush is armed, arm one: await the current
view transition if one is in flight, then request an animation frame for
flush. -/
def scheduleTask (vtInFlight : Bool) (t : Nat) (s : SchedulerState) :
    SchedulerState × List SchedulerAction :=
  let s1 : SchedulerState :=
    { s with queue := if s.queue.contains t then s.queue else s.queue ++ [t] }
  if s1.scheduled then (s1, [])
  else ({ s1 with scheduled := true },
        (if vtInFlight then [SchedulerAction.awaitViewTransition] else [])
          ++ [SchedulerAction.requestFrame])

/-- Embeds Scheduler.flush: dispatch every pending task (each via a
zero-delay timeout) in insertion order, then clear the set and the flag. -/
def flushTasks (s : SchedulerState) : List Nat × SchedulerState :=
  (s.queue, { queue := [], scheduled := false })

/-! ### DeclarativeShadowElement (src/all.js lines 789 to 800) -/

/-- A shadow root as the hydrator creates it. -/
structure ShadowData where
  mode : String
  children : List String
deriving DecidableEq, Repr

/-- The connection-relevant state of a declarative-shadow host: whether a
shadow root is attached (and its content), and the content of the first
direct child matching template[shadowrootmode="open"], if such a template
exists. Content is recorded as a list of subtree descriptions. -/
structure DSHost where
  shadowRoot : Option ShadowData
  templateContent : Option (List String)
deriving DecidableEq, Repr

/-- Embeds DeclarativeShadowElement.connectedCallback: with a shadow root
already attached, do nothing; with no matching template child, return
silently; otherwise attach an open shadow root and append a deep clone of
the template content (template.content.cloneNode(true)) to it. The
template keeps its own content: the source clones, it does not move. -/
def dsConnectedCallback (h : DSHost) : DSHost :=
  match h.shadowRoot with
  | some _ => h
  | none =>
    match h.templateContent with
    | none => h
    | some content =>
      { h with shadowRoot := some { mode := "open", children := content } }

/-- The behaviour the specification sentence describes, for comparison:
the template content is MOVED into the newly attached shadow root, leaving
the template empty. -/
def dsConnectedCallbackSpec (h : DSHost) : DSHost :=
  match h.shadowRoot with
  | some _ => h
  | none =>
    match h.templateContent with
    | none => h
    | some content =>
      { shadowRoot := some { mode := "open", children := content },
        templateContent := some [] }

/-! ### Auxiliary observation functions -/

/-- Whether a slot value references a given element. -/
def refValHas (v : RefVal) (e : Nat) : Bool :=
  match v with
  | RefVal.one x => x == e
  | RefVal.many xs => xs.contains e

/-- Whether a refs mapping references a given element under any slot. -/
def refsHas (refs : Refs) (e : Nat) : Bool :=
  refs.any fun p => refValHas p.2 e

/-- The classification #updateRefs applies to a collected element: the
element together with whether its marker carries the repetition suffix. -/
def slotClass (d : Dom) (e : Nat) : Nat × Bool :=
  (e, markerIsArray (refMarker d e))

/-- The effect of processing one classified element on the value of a
fixed slot: a repetition element appends to the current array (restarting
from empty when the current value is not an array), a plain element
overwrites. -/
def slotStep (cur : Option RefVal) (p : Nat × Bool) : Option RefVal :=
  if p.2 then
    some (RefVal.many
      ((match cur with | some (RefVal.many es) => es | _ => []) ++ [p.1]))
  else some (RefVal.one p.1)

/-! ### Concrete document instances used as evaluation inputs -/

/-- A component whose requiredRefs will not be satisfied: a lone
my-component element with no children. -/
def domMissingRefs : Dom :=
  ⟨[{ defaultDomNode with tag := "my-component", isComponentInstance := true }],
   by decide⟩

/-- Before removal: document > my-component > div[ref=foo]. -/
def domRemovalPre : Dom :=
  ⟨[{ defaultDomNode with kind := NodeKind.document, tag := "#document" },
    { defaultDomNode with tag := "my-component", isComponentInstance := true, parent := some 0 },
    { defaultDomNode with tag := "div", parent := some 1, attrs := [("ref", "foo")] }],
   by decide⟩

/-- After removal: the div is detached (null parentNode), exactly the state
the mutation observer sees when its childList record is delivered. -/
def domRemovalPost : Dom :=
  ⟨[{ defaultDomNode with kind := NodeKind.document, tag := "#document" },
    { defaultDomNode with tag := "my-component", isComponentInstance := true, parent := some 0 },
    { defaultDomNode with tag := "div", parent := none, attrs := [("ref", "foo")] }],
   by decide⟩

/-- An outer component with a shadow root holding a marked element and a
nested child component holding another marked element: document >
outer-component > #shadow-root > (div[ref=inner], nested-component >
div[ref=leak]). -/
def domNested : Dom :=
  ⟨[{ defaultDomNode with kind := NodeKind.document, tag := "#document" },
    { defaultDomNode with tag := "outer-component", isComponentInstance := true, parent := some 0, shadow := some 2 },
    { defaultDomNode with kind := NodeKind.shadowRootNode, tag := "#shadow-root", host := some 1 },
    { defaultDomNode with tag := "div", parent := some 2, attrs := [("ref", "inner")] },
    { defaultDomNode with tag := "nested-component", parent := some 2 },
    { defaultDomNode with tag := "div", parent := some 4, attrs := [("ref", "leak")] }],
   by decide⟩

/-- Three repeated markers around a plain one: document > my-component >
(span[ref=item[]], span[ref=item[]], div[ref=other], span[ref=item[]]). -/
def domRepetition : Dom :=
  ⟨[{ defaultDomNode with kind := NodeKind.document, tag := "#document" },
    { defaultDomNode with tag := "my-component", isComponentInstance := true, parent := some 0 },
    { defaultDomNode with tag := "span", parent := some 1, attrs := [("ref", "item[]")] },
    { defaultDomNode with tag := "span", parent := some 1, attrs := [("ref", "item[]")] },
    { defaultDomNode with tag := "div", parent := some 1, attrs := [("ref", "other")] },
    { defaultDomNode with tag := "span", parent := some 1, attrs := [("ref", "item[]")] }],
   by decide⟩

/-- The event-routing scenario: document > my-component (with a submit
method) > button[on:click="/submit?amount=5"] > span. -/
def domClick : Dom :=
  ⟨[{ defaultDomNode with kind := NodeKind.document, tag := "#document" },
    { defaultDomNode with tag := "my-component", isComponentInstance := true, parent := some 0, methods := ["submit"] },
    { defaultDomNode with tag := "button", parent := some 1, attrs := [("on:click", "/submit?amount=5")] },
    { defaultDomNode with tag := "span", parent := some 2 }],
   by decide⟩

/-- A binding with no method segment: document > my-component >
button[on:click="nothing"]. -/
def domNoMethod : Dom :=
  ⟨[{ defaultDomNode with kind := NodeKind.document, tag := "#document" },
    { defaultDomNode with tag := "my-component", isComponentInstance := true, parent := some 0 },
    { defaultDomNode with tag := "button", parent := some 1, attrs := [("on:click", "nothing")] }],
   by decide⟩

/-! ### Lemmas about the ref scan -/

theorem natContains_iff (l : List Nat) (a : Nat) : l.contains a = true ↔ a ∈ l := by
  simp

theorem refValHas_one (x e : Nat) : refValHas (RefVal.one x) e = true ↔ e = x := by
  rw [show refValHas (RefVal.one x) e = (x == e) from rfl, beq_iff_eq]
  exact eq_comm

theorem refValHas_many (xs : List Nat) (e : Nat) :
    refValHas (RefVal.many xs) e = true ↔ e ∈ xs := by
  simp [refValHas]

theorem refsHas_cons (p : String × RefVal) (rest : Refs) (e : Nat) :
    refsHas (p :: rest) e = (refValHas p.2 e || refsHas rest e) := rfl

theorem refsHas_of_lookup (r : Refs) (k : String) (v : RefVal) (e : Nat)
    (hl : lookupEntry r k = some v) (hv : refValHas v e = true) :
    refsHas r e = true := by
  induction r with
  | nil => simp [lookupEntry] at hl
  | cons p rest ih =>
    by_cases hp : p.1 = k
    · simp only [lookupEntry, hp, if_pos, Option.some.injEq] at hl
      rw [refsHas_cons, hl, hv, Bool.true_or]
    · simp only [lookupEntry, hp, if_false] at hl
      rw [refsHas_cons, ih hl, Bool.or_true]

theorem refsHas_setEntry_cases (r : Refs) (k : String) (v : RefVal) (e : Nat)
    (h : refsHas (setEntry r k v) e = true) :
    refsHas r e = true ∨ refValHas v e = true := by
  induction r with
  | nil =>
    rw [show setEntry ([] : Refs) k v = [(k, v)] from rfl, refsHas_cons] at h
    simp only [refsHas, List.any_nil, Bool.or_false] at h
    exact Or.inr h
  | cons p rest ih =>
    by_cases hp : p.1 = k
    · rw [show setEntry (p :: rest) k v = (k, v) :: rest by simp [setEntry, hp],
        refsHas_cons] at h
      rcases Bool.or_eq_true_iff.mp h with h2 | h2
      · exact Or.inr h2
      · exact Or.inl (by rw [refsHas_cons, h2, Bool.or_true])
    · rw [show setEntry (p :: rest) k v = p :: setEntry rest k v by
        simp [setEntry, hp], refsHas_cons] at h
      rcases Bool.or_eq_true_iff.mp h with h2 | h2
      · exact Or.inl (by rw [refsHas_cons, h2, Bool.true_or])
      · rcases ih h2 with h3 | h3
        · exact Or.inl (by rw [refsHas_cons, h3, Bool.or_true])
        · exact Or.inr h3

theorem refsHas_buildStep (d : Dom) (refs : Refs) (e0 e : Nat)
    (h : refsHas (buildStep d refs e0) e = true) :
    refsHas refs e = true ∨ e = e0 := by
  simp only [buildStep] at h
  by_cases harr : markerIsArray (refMarker d e0)
  · simp only [harr, if_true] at h
    cases hl : lookupEntry refs (markerPath (refMarker d e0)) with
    | none =>
      simp only [hl] at h
      rcases refsHas_setEntry_cases _ _ _ _ h with h2 | h2
      · exact Or.inl h2
      · have h3 := (refValHas_many _ _).mp h2
        simp only [List.nil_append, List.mem_singleton] at h3
        exact Or.inr h3
    | some v =>
      cases v with
      | one x =>
        simp only [hl] at h
        rcases refsHas_setEntry_cases _ _ _ _ h with h2 | h2
        · exact Or.inl h2
        · have h3 := (refValHas_many _ _).mp h2
          simp only [List.nil_append, List.mem_singleton] at h3
          exact Or.inr h3
      | many es =>
        simp only [hl] at h
        rcases refsHas_setEntry_cases _ _ _ _ h with h2 | h2
        · exact Or.inl h2
        · have h3 := (refValHas_many _ _).mp h2
          rcases List.mem_append.mp h3 with h4 | h4
          · exact Or.inl (refsHas_of_lookup _ _ _ _ hl ((refValHas_many _ _).mpr h4))
          · exact Or.inr (by simpa using h4)
  · simp only [harr, Bool.false_eq_true, if_false] at h
    rcases refsHas_setEntry_cases _ _ _ _ h with h2 | h2
    · exact Or.inl h2
    · exact Or.inr ((refValHas_one _ _).mp h2)

theorem refsHas_foldl_buildStep (d : Dom) (e : Nat) (l : List Nat) :
    ∀ refs0 : Refs, refsHas (l.foldl (buildStep d) refs0) e = true →
      refsHas refs0 e = true ∨ e ∈ l := by
  induction l with
  | nil => intro refs0 h; exact Or.inl h
  | cons a l ih =>
    intro refs0 h
    rcases ih (buildStep d refs0 a) h with h2 | h2
    · rcases refsHas_buildStep d refs0 a e h2 with h3 | h3
      · exact Or.inl h3
      · exact Or.inr (by simp [h3])
    · exact Or.inr (List.mem_cons_of_mem _ h2)

theorem mem_foldl_addRefElement (d : Dom) (c x : Nat) (l : List Nat) :
    ∀ acc : List Nat, x ∈ l.foldl (addRefElement d c) acc →
      x ∈ acc ∨ isDescendant d c x = true := by
  induction l with
  | nil => intro acc h; exact Or.inl h
  | cons e l ih =>
    intro acc h
    rcases ih (addRefElement d c acc e) h with h2 | h2
    · unfold addRefElement at h2
      by_cases hd : isDescendant d c e
      · simp only [hd, Bool.not_true, Bool.false_eq_true, if_false] at h2
        by_cases hc : acc.contains e
        · simp only [hc, if_true] at h2
          exact Or.inl h2
        · simp only [hc, Bool.false_eq_true, if_false, List.mem_append,
            List.mem_singleton] at h2
          rcases h2 with h2 | h2
          · exact Or.inl h2
          · exact Or.inr (h2 ▸ hd)
      · simp only [hd] at h2
        simp at h2
        exact Or.inl h2
    · exact Or.inr h2

theorem mem_collect_isDescendant (d : Dom) (c x : Nat)
    (h : x ∈ collectRefElements d c) : isDescendant d c x = true := by
  unfold collectRefElements at h
  have main : ∀ (rl : List Nat) (acc : List Nat),
      x ∈ rl.foldl
        (fun acc root => (querySelectorAllRef d root).foldl (addRefElement d c) acc)
        acc →
      x ∈ acc ∨ isDescendant d c x = true := by
    intro rl
    induction rl with
    | nil => intro acc h2; exact Or.inl h2
    | cons r rl ih =>
      intro acc h2
      rcases ih _ h2 with h3 | h3
      · exact mem_foldl_addRefElement d c x _ acc h3
      · exact Or.inr h3
  rcases main (roots d c) [] h with h2 | h2
  · simp at h2
  · exact h2

theorem refsHas_buildRefs_mem (d : Dom) (c e : Nat)
    (h : refsHas (buildRefs d c) e = true) : e ∈ collectRefElements d c := by
  unfold buildRefs at h
  rcases refsHas_foldl_buildStep d e (collectRefElements d c) [] h with h2 | h2
  · simp [refsHas] at h2
  · exact h2

theorem lookupEntry_buildStep (d : Dom) (refs : Refs) (e : Nat) (nm : String) :
    lookupEntry (buildStep d refs e) nm =
      if markerPath (refMarker d e) = nm then
        slotStep (lookupEntry refs nm) (slotClass d e)
      else lookupEntry refs nm := by
  unfold buildStep slotStep slotClass
  by_cases harr : markerIsArray (refMarker d e)
  · by_cases h : markerPath (refMarker d e) = nm
    · simp [harr, lookupEntry_setEntry, h]
    · have h2 : ¬ nm = markerPath (refMarker d e) := fun hk => h hk.symm
      simp [harr, lookupEntry_setEntry, h, h2]
  · by_cases h : markerPath (refMarker d e) = nm
    · simp [harr, lookupEntry_setEntry, h]
    · have h2 : ¬ nm = markerPath (refMarker d e) := fun hk => h hk.symm
      simp [harr, lookupEntry_setEntry, h, h2]

theorem lookup_foldl_buildStep (d : Dom) (nm : String) (l : List Nat) :
    ∀ refs0 : Refs,
      lookupEntry (l.foldl (buildStep d) refs0) nm =
        ((l.filter fun e => markerPath (refMarker d e) == nm).map (slotClass d)).foldl
          slotStep (lookupEntry refs0 nm) := by
  induction l with
  | nil => intro refs0; rfl
  | cons e l ih =>
    intro refs0
    by_cases h : markerPath (refMarker d e) = nm
    · simp only [List.foldl_cons, List.filter_cons, h, beq_self_eq_true, if_true,
        List.map_cons]
      rw [ih (buildStep d refs0 e), lookupEntry_buildStep, if_pos h]
    · have hb : (markerPath (refMarker d e) == nm) = false := by
        simp [h]
      simp only [List.foldl_cons, List.filter_cons, hb, Bool.false_eq_true, if_false]
      rw [ih (buildStep d refs0 e), lookupEntry_buildStep, if_neg h]

theorem lookup_buildRefs (d : Dom) (c : Nat) (nm : String) :
    lookupEntry (buildRefs d c) nm =
      (((collectRefElements d c).filter fun e =>
          markerPath (refMarker d e) == nm).map (slotClass d)).foldl slotStep none := by
  unfold buildRefs
  rw [lookup_foldl_buildStep]
  rfl

/-! ### Claim C3: nested-component isolation -/

/-- Claim C3 (confirmed): for every component c and every marked element e
whose nearest owning-component ancestor (the getClosestComponent walk from
its getAncestor, classifying a node as a component when it is a Component
instance or a custom element whose tag name ends with "-component") is
some component other than c, e never appears in the refs mapping built for
c, under any slot name. -/
theorem claimC3_nested_isolation (d : Dom) (c e owner : Nat)
    (hown : getClosestComponent d (getAncestor d e) = some owner)
    (hne : owner ≠ c) :
    refsHas (buildRefs d c) e = false := by
  cases hb : refsHas (buildRefs d c) e with
  | false => rfl
  | true =>
    exfalso
    have hmem := refsHas_buildRefs_mem d c e hb
    have hdesc := mem_collect_isDescendant d c e hmem
    unfold isDescendant at hdesc
    rw [hown] at hdesc
    simp only [beq_iff_eq, Option.some.injEq] at hdesc
    exact hne hdesc

/-- Witness for claim C3: in domNested, the element marked leak (node 5)
belongs to the nested child component (node 4), so the outer component
(node 1) never records it. -/
theorem claimC3_witness :
    getClosestComponent domNested (getAncestor domNested 5) = some 4 ∧
    (4 : Nat) ≠ 1 ∧
    refsHas (buildRefs domNested 1) 5 = false :=
  ⟨by decide, by decide,
   claimC3_nested_isolation domNested 1 5 4 (by decide) (by decide)⟩

/-! ### Claim C5: repetition-suffixed markers -/

/-- Claim C5 (confirmed): when the qualifying descendants whose marker
path is "item" are, in discovery order, e1 e2 e3, each carrying the marker
"item[]", the built refs map "item" to the ordered sequence [e1, e2, e3];
the repetition suffix is exactly the two trailing characters, and a slot
whose last qualifying element carries a plain (suffix-free) marker holds
just that single element, later elements having overwritten earlier
ones. -/
theorem claimC5_repetition (d : Dom) (c e1 e2 e3 : Nat)
    (hfilter : (collectRefElements d c).filter
        (fun e => markerPath (refMarker d e) == "item") = [e1, e2, e3])
    (hm1 : refMarker d e1 = "item[]") (hm2 : refMarker d e2 = "item[]")
    (hm3 : refMarker d e3 = "item[]") :
    lookupEntry (buildRefs d c) "item" = some (RefVal.many [e1, e2, e3]) ∧
    markerIsArray "item[]" = true ∧ markerPath "item[]" = "item" ∧
    markerIsArray "item" = false ∧
    (∀ (nm : String) (l : List Nat) (x : Nat),
      (collectRefElements d c).filter
          (fun e => markerPath (refMarker d e) == nm) = l ++ [x] →
      markerIsArray (refMarker d x) = false →
      lookupEntry (buildRefs d c) nm = some (RefVal.one x)) := by
  have harr : markerIsArray "item[]" = true := by decide
  refine ⟨?_, harr, by decide, by decide, ?_⟩
  · rw [lookup_buildRefs, hfilter]
    simp [slotClass, slotStep, hm1, hm2, hm3, harr]
  · intro nm l x hf hx
    rw [lookup_buildRefs, hf, List.map_append, List.foldl_append]
    simp [slotClass, slotStep, hx]

/-- Witness for claim C5: in domRepetition the three spans marked item[]
are nodes 2, 3, 5 and end up, in document order, in refs.item. -/
theorem claimC5_witness :
    (collectRefElements domRepetition 1).filter
        (fun e => markerPath (refMarker domRepetition e) == "item") = [2, 3, 5] ∧
    lookupEntry (buildRefs domRepetition 1) "item" =
      some (RefVal.many [2, 3, 5]) :=
  ⟨by decide,
   (claimC5_repetition domRepetition 1 2 3 5 (by decide) (by decide) (by decide)
     (by decide)).1⟩

/-! ### Claim C6: scheduler coalescing -/

/-- Claim C6 (confirmed): scheduling the same task twice before a flush
executes it exactly once; scheduling two distinct tasks executes both in
submission order; arming the flush first awaits an in-flight view
transition and then requests the animation frame; and flush clears the
pending set and the pending flag. -/
theorem claimC6_scheduler (vt : Bool) (t u : Nat) (s : SchedulerState)
    (ht : t ∉ s.queue) (hu : u ∉ s.queue) (hne : t ≠ u) :
    (flushTasks (scheduleTask vt t (scheduleTask vt t s).1).1).1.count t = 1 ∧
    (flushTasks (scheduleTask vt u (scheduleTask vt t s).1).1).1 = s.queue ++ [t, u] ∧
    (∀ s2 : SchedulerState, (flushTasks s2).2 = ⟨[], false⟩) ∧
    (s.scheduled = false →
      (scheduleTask vt t s).2 =
        (if vt then [SchedulerAction.awaitViewTransition] else [])
          ++ [SchedulerAction.requestFrame]) := by
  obtain ⟨q, fl⟩ := s
  simp only at ht hu
  have hc1 : q.contains t = false := by
    cases hcc : q.contains t with
    | false => rfl
    | true => exact absurd ((natContains_iff _ _).mp hcc) ht
  have h1 : (scheduleTask vt t ⟨q, fl⟩).1 = ⟨q ++ [t], true⟩ := by
    cases fl <;> simp [scheduleTask, hc1, ht]
  have hc2 : (q ++ [t]).contains t = true :=
    (natContains_iff _ _).mpr (by simp)
  have hc3 : (q ++ [t]).contains u = false := by
    cases hcc : (q ++ [t]).contains u with
    | false => rfl
    | true =>
      have := (natContains_iff _ _).mp hcc
      rcases List.mem_append.mp this with h | h
      · exact absurd h hu
      · exact absurd (List.mem_singleton.mp h) (fun hh => hne hh.symm)
  have h2 : (scheduleTask vt t (scheduleTask vt t ⟨q, fl⟩).1).1 = ⟨q ++ [t], true⟩ := by
    rw [h1]; simp [scheduleTask, hc2]
  have h3 : (scheduleTask vt u (scheduleTask vt t ⟨q, fl⟩).1).1 = ⟨q ++ [t] ++ [u], true⟩ := by
    rw [h1]; simp [scheduleTask, hc3, hu, Ne.symm hne]
  refine ⟨?_, ?_, fun s2 => rfl, ?_⟩
  · rw [h2]
    simp [flushTasks, List.count_append, List.count_eq_zero.mpr ht]
  · rw [h3]
    simp [flushTasks, List.append_assoc]
  · intro hfl
    subst hfl
    simp [scheduleTask, hc1]

/-- Witness for claim C6 at concrete inputs: tasks 0 and 1 from the idle
scheduler state, with a view transition in flight. -/
theorem claimC6_witness :
    (flushTasks (scheduleTask true 0 (scheduleTask true 0 ⟨[], false⟩).1).1).1.count 0 = 1 ∧
    (flushTasks (scheduleTask true 1 (scheduleTask true 0 ⟨[], false⟩).1).1).1 = [0, 1] ∧
    (scheduleTask true 0 ⟨[], false⟩).2 =
      [SchedulerAction.awaitViewTransition, SchedulerAction.requestFrame] := by
  have h := claimC6_scheduler true 0 1 ⟨[], false⟩ (by decide) (by decide) (by decide)
  exact ⟨h.1, by simpa using h.2.1, by simpa using h.2.2.2 rfl⟩

/-! ### Claim C9: declarative shadow hydration -/

/-- Claim C9 (corrected): on connection, a host with no shadow root but
with a declarative template child gets an open shadow root holding the
template content; a host with an existing shadow root is left untouched
(idempotent); absence of a template is silent. Correction: the content is
deep-CLONED into the shadow root (template.content.cloneNode(true)), the
template keeps its own content, nothing is moved out of it. -/
theorem claimC9_amended (h : DSHost) :
    (∀ sr, h.shadowRoot = some sr → dsConnectedCallback h = h) ∧
    (h.shadowRoot = none → h.templateContent = none → dsConnectedCallback h = h) ∧
    (∀ content, h.shadowRoot = none → h.templateContent = some content →
      dsConnectedCallback h =
        { shadowRoot := some { mode := "open", children := content },
          templateContent := some content }) := by
  obtain ⟨sr, tc⟩ := h
  refine ⟨?_, ?_, ?_⟩
  · intro s hs
    simp only at hs
    subst hs
    rfl
  · intro h1 h2
    simp only at h1 h2
    subst h1; subst h2
    rfl
  · intro content h1 h2
    simp only at h1 h2
    subst h1; subst h2
    rfl

/-- Counterexample for claim C9 as stated: the claim says the template
content is MOVED into the new shadow root, but after connection the
template still holds its content; the code differs from the moving variant
written from the specification text. -/
theorem claimC9_counterexample :
    dsConnectedCallback ⟨none, some ["div"]⟩ ≠
      dsConnectedCallbackSpec ⟨none, some ["div"]⟩ ∧
    (dsConnectedCallback ⟨none, some ["div"]⟩).templateContent = some ["div"] ∧
    (dsConnectedCallbackSpec ⟨none, some ["div"]⟩).templateContent = some [] := by
  decide

/-- Witness for claim C9: the three contract cases at concrete hosts. -/
theorem claimC9_witness :
    dsConnectedCallback ⟨none, some ["div"]⟩ =
      ⟨some ⟨"open", ["div"]⟩, some ["div"]⟩ ∧
    dsConnectedCallback ⟨some ⟨"open", ["p"]⟩, none⟩ = ⟨some ⟨"open", ["p"]⟩, none⟩ ∧
    dsConnectedCallback ⟨none, none⟩ = ⟨none, none⟩ :=
  ⟨(claimC9_amended ⟨none, some ["div"]⟩).2.2 ["div"] rfl rfl,
   (claimC9_amended ⟨some ⟨"open", ["p"]⟩, none⟩).1 ⟨"open", ["p"]⟩ rfl,
   (claimC9_amended ⟨none, none⟩).2.1 rfl rfl⟩

/-! ### Claim C10: refs retained on missing-required-ref error -/

/-- Claim C10 (confirmed): whenever a ref computation raises the
missing-required-ref error, the component keeps exactly the refs mapping
it held before the computation: the throw in the requiredRefs loop happens
before the refs assignment, so the newly built partial mapping is never
installed. -/
theorem claimC10_refs_retained (d : Dom) (c : Nat) (required : Option (List String))
    (st : CompState) (err : MissingRef)
    (h : (runUpdateRefs d c required st).2 = some err) :
    (runUpdateRefs d c required st).1.refs = st.refs := by
  unfold runUpdateRefs at h ⊢
  cases hres : updateRefsResult d c required with
  | ok r => simp [hres] at h
  | error e => simp [hres]

/-- Witness for claim C10: a component requiring foo with no marked
descendant errors, and its previously held refs binding survives. -/
theorem claimC10_witness :
    (runUpdateRefs domMissingRefs 0 (some ["foo"])
        ⟨[("old", RefVal.one 7)], true⟩).2 = some ⟨"foo", "my-component"⟩ ∧
    (runUpdateRefs domMissingRefs 0 (some ["foo"])
        ⟨[("old", RefVal.one 7)], true⟩).1.refs = [("old", RefVal.one 7)] :=
  ⟨by decide,
   claimC10_refs_retained domMissingRefs 0 (some ["foo"])
     ⟨[("old", RefVal.one 7)], true⟩ ⟨"foo", "my-component"⟩ (by decide)⟩

/-! ### Claim C1: required-ref enforcement -/

/-- Claim C1 (corrected): a component whose requiredRefs contains a name
with no qualifying marked descendant fails loudly exactly once at
initialization - connectedCallback raises the MissingRefError synchronously
from the first ref computation, does not catch it, and never reaches the
observer registration - and the error names the FIRST missing required
name together with the lowercased component tag (so it names foo exactly
when every required name listed before foo is present, in particular for
requiredRefs = [foo]). -/
theorem claimC1_amended (d : Dom) (c : Nat) (reqs : List String)
    (st : CompState) (r : String)
    (hfm : firstMissingRef reqs (buildRefs d c) = some r) :
    connectedCallbackRefs d c (some reqs) st =
      Except.error ⟨r, jsToLower (d.node c).tag⟩ ∧
    lookupEntry (buildRefs d c) r = none ∧
    missingRefMessage ⟨r, jsToLower (d.node c).tag⟩ =
      "Required ref \"" ++ r ++ "\" not found in component "
        ++ jsToLower (d.node c).tag := by
  have hne : reqs ≠ [] := by
    intro h0; subst h0; simp [firstMissingRef] at hfm
  have hmiss : lookupEntry (buildRefs d c) r = none := by
    have hp := List.find?_some hfm
    exact Option.isNone_iff_eq_none.mp (by simpa using hp)
  have hemp : reqs.isEmpty = false := by
    cases reqs with
    | nil => exact absurd rfl hne
    | cons a as => rfl
  refine ⟨?_, hmiss, rfl⟩
  unfold connectedCallbackRefs updateRefsResult
  simp [hemp, hfm]

/-- Counterexample for claim C1 as stated: with requiredRefs =
[bar, foo] and both names missing, the computation throws for bar, and
the raised message does not name foo even though foo is a missing
required name, so the claim that the message names foo fails. -/
theorem claimC1_counterexample :
    ("foo" ∈ ["bar", "foo"]) ∧
    lookupEntry (buildRefs domMissingRefs 0) "foo" = none ∧
    connectedCallbackRefs domMissingRefs 0 (some ["bar", "foo"]) ⟨[], false⟩ =
      Except.error ⟨"bar", "my-component"⟩ ∧
    containsSub "foo".data (missingRefMessage ⟨"bar", "my-component"⟩).data = false :=
  ⟨by decide, by decide, rfl, by decide⟩

/-- Witness for claim C1: requiredRefs = [foo] with no marked descendant
raises the error naming foo and the tag. -/
theorem claimC1_witness :
    firstMissingRef ["foo"] (buildRefs domMissingRefs 0) = some "foo" ∧
    connectedCallbackRefs domMissingRefs 0 (some ["foo"]) ⟨[], false⟩ =
      Except.error ⟨"foo", "my-component"⟩ :=
  ⟨by decide,
   (claimC1_amended domMissingRefs 0 ["foo"] ⟨[], false⟩ "foo" (by decide)).1⟩

/-! ### Claim C2: mutation re-scan on removal -/

/-- Claim C2 (code bug): the claim and the observer's own intent say that
removing a marked descendant and waiting for the mutation delivery makes
the slot disappear. The code checks #isDescendant on the REMOVED node at
delivery time, when the node is already detached (null parentNode, its own
root), so the check is false, #updateRefs is skipped, and the stale slot
survives - although a fresh computation on the post-removal dom would drop
it. The conjunction below evaluates the code at the failing input:
connect, remove the single marked child, deliver the childList record. -/
theorem claimC2_code_bug :
    connectedCallbackRefs domRemovalPre 1 none ⟨[], false⟩ =
      Except.ok ⟨[("foo", RefVal.one 2)], true⟩ ∧
    isDescendant domRemovalPost 1 2 = false ∧
    mutationTriggers domRemovalPost 1 [⟨"childList", 1, [], [2]⟩] = false ∧
    onMutationBatch domRemovalPost 1 none ⟨[("foo", RefVal.one 2)], true⟩
        [⟨"childList", 1, [], [2]⟩] = (⟨[("foo", RefVal.one 2)], true⟩, none) ∧
    lookupEntry (buildRefs domRemovalPost 1) "foo" = none :=
  ⟨rfl, by decide, by decide, rfl, by decide⟩

/-! ### Claim C7: handler exceptions are caught and logged -/

/-- Claim C7 (confirmed): when a dispatch resolves an invocation whose
handler throws, the exception is caught by the per-invocation try/catch
and logged via console.error; the listener returns normally (runListener
is total, nothing propagates), and the processing of subsequent events is
exactly what it would have been anyway. -/
theorem claimC7_handler_exception (d : Dom) (throws : Nat → String → Bool)
    (ev : EventInfo) (inv : Invocation)
    (hd : dispatchOn d ev = some inv)
    (ht : throws inv.receiver inv.method = true) :
    runListener d throws ev = (some inv, [(inv.receiver, inv.method)]) ∧
    (∀ evs : List EventInfo,
      runEvents d throws (ev :: evs) =
        runListener d throws ev :: runEvents d throws evs) := by
  constructor
  · simp [runListener, hd, ht]
  · intro evs; simp [runEvents]

/-- Witness for claim C7: a throwing submit handler on the click dom is
invoked, its error is logged, and the listener returns a value. -/
theorem claimC7_witness :
    dispatchOn domClick ⟨"click", 2, true⟩ =
      some ⟨1, "submit", some (JsData.obj [("amount", JsValue.num 5)]), 2⟩ ∧
    runListener domClick (fun _ _ => true) ⟨"click", 2, true⟩ =
      (some ⟨1, "submit", some (JsData.obj [("amount", JsValue.num 5)]), 2⟩,
       [(1, "submit")]) :=
  ⟨by decide,
   (claimC7_handler_exception domClick (fun _ _ => true) ⟨"click", 2, true⟩
     ⟨1, "submit", some (JsData.obj [("amount", JsValue.num 5)]), 2⟩
     (by decide) rfl).1⟩

/-! ### Claim C8: resolution misses are silent no-ops -/

/-- Claim C8 (confirmed): when the binding marker of the resolved element
has no method segment (or an empty one), or the resolved instance is
missing or not a Component instance, or the instance exposes no callable
under the parsed method name, dispatch invokes nothing and logs nothing;
runListener still returns a value, so there is no crash. -/
theorem claimC8_silent_noop (d : Dom) (throws : Nat → String → Bool)
    (ev : EventInfo) (element : Nat)
    (hel : getElement d ev = some element)
    (hmiss :
      bindingMethodRaw (bindingValue d element ev.type) = none ∨
      bindingMethodRaw (bindingValue d element ev.type) = some "" ∨
      resolveInstance d element (bindingSelector (bindingValue d element ev.type)) = none ∨
      (∃ inst,
        resolveInstance d element (bindingSelector (bindingValue d element ev.type)) = some inst ∧
        ((d.node inst).isComponentInstance = false ∨
         ∀ m0, bindingMethodRaw (bindingValue d element ev.type) = some m0 →
           (d.node inst).methods.contains (bindingMethod m0) = false))) :
    runListener d throws ev = (none, []) := by
  have hnone : dispatchOn d ev = none := by
    unfold dispatchOn
    rcases hmiss with h | h | h | ⟨inst, hi, hcase⟩
    · cases hri : resolveInstance d element (bindingSelector (bindingValue d element ev.type)) with
      | none => simp [hel, h, hri]
      | some i => simp [hel, h, hri]
    · cases hri : resolveInstance d element (bindingSelector (bindingValue d element ev.type)) with
      | none => simp [hel, h, hri]
      | some i => simp [hel, h, hri]
    · cases hm : bindingMethodRaw (bindingValue d element ev.type) with
      | none => simp [hel, h, hm]
      | some m0 => simp [hel, h, hm]
    · rcases hcase with hic | hmq
      · cases hm : bindingMethodRaw (bindingValue d element ev.type) with
        | none => simp [hel, hi, hm]
        | some m0 =>
          by_cases hz : m0 = ""
          · simp [hel, hi, hm, hz]
          · simp [hel, hi, hm, hz, hic]
      · cases hm : bindingMethodRaw (bindingValue d element ev.type) with
        | none => simp [hel, hi, hm]
        | some m0 =>
          by_cases hz : m0 = ""
          · simp [hel, hi, hm, hz]
          · by_cases hic : (d.node inst).isComponentInstance
            · simp only [hel, hi, hm, hz, hic, Bool.not_true, hmq m0 hm,
                Bool.false_eq_true, if_false, if_neg hz]
            · simp [hel, hi, hm, hz, hic]
  simp [runListener, hnone]

/-- Witness for claim C8: a binding with no slash has no method segment,
and the click is a silent no-op. -/
theorem claimC8_witness :
    getElement domNoMethod ⟨"click", 2, true⟩ = some 2 ∧
    bindingMethodRaw (bindingValue domNoMethod 2 "click") = none ∧
    runListener domNoMethod (fun _ _ => false) ⟨"click", 2, true⟩ = (none, []) :=
  ⟨by decide, by decide,
   claimC8_silent_noop domNoMethod (fun _ _ => false) ⟨"click", 2, true⟩ 2
     (by decide) (Or.inl (by decide))⟩

/-! ### Claim C4: event routing -/

/-- Claim C4 (corrected): a click on a button bearing
on:click="/submit?amount=5" invokes submit on the nearest owning component
exactly once (the listener set is registered once thanks to the idempotent
guard), with first argument the mapping amount to the number 5 and last
argument the event. Correction: a click on a non-marked descendant of the
button ALSO invokes it exactly once - click bubbles, so getElement walks
up via closest to the button - and the handler observes the button as the
event target through the proxied event. -/
theorem claimC4_amended (d : Dom) (comp button span : Nat)
    (hbtnEl : (d.node button).kind = NodeKind.element)
    (hattr : getAttr d button "on:click" = some "/submit?amount=5")
    (hcc : getClosestComponent d (some button) = some comp)
    (hcomp : (d.node comp).isComponentInstance = true)
    (hmeth : (d.node comp).methods.contains "submit" = true)
    (hspanEl : (d.node span).kind = NodeKind.element)
    (hspanPar : (d.node span).parent = some button)
    (hspanNo : hasAttr d span "on:click" = false) :
    invocationsForEvent (registerEventListeners (registerEventListeners ⟨false, 0⟩)) d
        ⟨"click", button, true⟩ =
      [⟨comp, "submit", some (JsData.obj [("amount", JsValue.num 5)]), button⟩] ∧
    invocationsForEvent (registerEventListeners (registerEventListeners ⟨false, 0⟩)) d
        ⟨"click", span, true⟩ =
      [⟨comp, "submit", some (JsData.obj [("amount", JsValue.num 5)]), button⟩] := by
  have hbattr : hasAttr d button "on:click" = true := by simp [hasAttr, hattr]
  have hsel : bindingSelector "/submit?amount=5" = "" := by decide
  have hraw : bindingMethodRaw "/submit?amount=5" = some "submit?amount=5" := by decide
  have hbm : bindingMethod "submit?amount=5" = "submit" := by decide
  have hbdpd : (bindingData "/submit?amount=5").map parseData =
      some (JsData.obj [("amount", JsValue.num 5)]) := by decide
  have hval : bindingValue d button "click" = "/submit?amount=5" := by
    simp [bindingValue, hattr]
  have hri : resolveInstance d button "" = some comp := by
    simp [resolveInstance, hcc]
  have hdisp : ∀ ev : EventInfo, ev.type = "click" → getElement d ev = some button →
      dispatchOn d ev =
        some ⟨comp, "submit", some (JsData.obj [("amount", JsValue.num 5)]), button⟩ := by
    intro ev htype hel
    unfold dispatchOn
    simp only [hel, htype, hval, hsel, hraw, hri, hbm, hbdpd]
    simp [hcomp, hbm, hbdpd, List.mem_of_elem_eq_true hmeth]
  have hgeButton : getElement d ⟨"click", button, true⟩ = some button := by
    simp [getElement, hbtnEl, hbattr]
  have hlen : d.nodes.length ≠ 0 := by
    intro h0
    have hnil : d.nodes = [] := List.length_eq_zero.mp h0
    have : d.node span = defaultDomNode := by simp [Dom.node, hnil]
    rw [this] at hspanPar
    simp [defaultDomNode] at hspanPar
  obtain ⟨k, hk⟩ := Nat.exists_eq_succ_of_ne_zero hlen
  have hgeSpan : getElement d ⟨"click", span, true⟩ = some button := by
    have hspanNoB : hasAttr d span "on:click" = false := hspanNo
    simp only [getElement, hspanEl]
    simp only [bne_self_eq_false, Bool.false_eq_true, if_false]
    simp [hspanNo, expensiveEvents]
    unfold closestAttr
    rw [hk]
    simp [closestAttrFuel, hspanEl, hspanNo, hspanPar, hbtnEl, hbattr]
  have hd1 := hdisp ⟨"click", button, true⟩ rfl hgeButton
  have hd2 := hdisp ⟨"click", span, true⟩ rfl hgeSpan
  constructor
  · simp [invocationsForEvent, registerEventListeners, hd1, eventsList, expensiveEvents]
  · simp [invocationsForEvent, registerEventListeners, hd2, eventsList, expensiveEvents]

/-- Counterexample for claim C4 as stated: the span (node 3) carries no
marker, yet clicking it dispatches the submit invocation, because click
bubbles and the ancestor walk resolves the button; the claim says this
click must not invoke the method. -/
theorem claimC4_counterexample :
    hasAttr domClick 3 "on:click" = false ∧
    dispatchOn domClick ⟨"click", 3, true⟩ =
      some ⟨1, "submit", some (JsData.obj [("amount", JsValue.num 5)]), 2⟩ :=
  ⟨by decide, by decide⟩

/-- Witness for claim C4: the concrete click dom, clicks on the button and
on its span child, each producing exactly one submit invocation. -/
theorem claimC4_witness :
    invocationsForEvent (registerEventListeners (registerEventListeners ⟨false, 0⟩))
        domClick ⟨"click", 2, true⟩ =
      [⟨1, "submit", some (JsData.obj [("amount", JsValue.num 5)]), 2⟩] ∧
    invocationsForEvent (registerEventListeners (registerEventListeners ⟨false, 0⟩))
        domClick ⟨"click", 3, true⟩ =
      [⟨1, "submit", some (JsData.obj [("amount", JsValue.num 5)]), 2⟩] :=
  claimC4_amended domClick 1 2 3 (by decide) (by decide) (by decide) (by decide)
    (by decide) (by decide) (by decide) (by decide)
